import Mathlib

/-!
Verification of the battle engine of a turn-based creature combat game.

The development shallowly embeds the TypeScript sources:
  * `src/models/teamBuilder.ts` (stat-stage tables, `getStageMultiplier`,
    `applyStageChange`),
  * `src/models/statusCondition.ts` (`calculateStatusDamage`,
    `isImmuneToStatus`, `TYPE_IMMUNITIES`),
  * `src/domain/battle/calc/damage.ts` (`calculateDamage`),
  * `src/stores/battle.ts` (`startBattle`, `selectPlayerMove`,
    `executeAttack`, `switchNpcPokemon`, `switchPlayerPokemon`,
    `clonePokemon`, placeholder data),
  * `src/domain/battle/engine/entities.ts` (the data model).

JavaScript numbers are modelled by `ℚ` (with `Int.floor` for `Math.floor`)
and integer-valued fields by `ℤ`.  A handful of collaborator modules are
absent from the sources (the seeded RNG, the static type chart lookup, the
move-effect service, the AI policy); these are modelled from the spec and
are marked as such in their doc comments.
-/

/-- Pokemon element type (18 values), from `entities.ts` / `teamBuilder.ts`. -/
inductive TType
  | normal | fire | water | electric | grass | ice
  | fighting | poison | ground | flying | psychic | bug
  | rock | ghost | dragon | dark | steel | fairy
  deriving DecidableEq, Repr

/-- Lower-case name of a type, as produced by `type.toLowerCase()` in
`isImmuneToStatus` (`statusCondition.ts`). -/
def typeLower : TType → String
  | .normal => "normal" | .fire => "fire" | .water => "water"
  | .electric => "electric" | .grass => "grass" | .ice => "ice"
  | .fighting => "fighting" | .poison => "poison" | .ground => "ground"
  | .flying => "flying" | .psychic => "psychic" | .bug => "bug"
  | .rock => "rock" | .ghost => "ghost" | .dragon => "dragon"
  | .dark => "dark" | .steel => "steel" | .fairy => "fairy"

/-- Move category, from `entities.ts`. -/
inductive Category
  | physical | special | status
  deriving DecidableEq, Repr

/-- Primary status conditions, from `statusCondition.ts`. -/
inductive StatusCondition
  | paralysis | sleep | poison | burn | freeze | badlyPoisoned
  deriving DecidableEq, Repr

/-- State tracking for an active status condition, from `statusCondition.ts`. -/
structure StatusConditionState where
  condition : StatusCondition
  turnsRemaining : Option ℤ := none
  poisonCounter : Option ℤ := none
  deriving DecidableEq, Repr

/-- Stat stage record, from `statStages` model in `teamBuilder.ts`
(the TypeScript field `def` is spelled `defn` here). -/
structure StatStages where
  atk : ℤ
  defn : ℤ
  spAtk : ℤ
  spDef : ℤ
  speed : ℤ
  accuracy : ℤ
  evasion : ℤ
  deriving DecidableEq, Repr

/-- `DEFAULT_STAT_STAGES` from `teamBuilder.ts`. -/
def DEFAULT_STAT_STAGES : StatStages :=
  { atk := 0, defn := 0, spAtk := 0, spDef := 0, speed := 0,
    accuracy := 0, evasion := 0 }

/-- Kinds of move effects, from the `moveEffect` model. -/
inductive MoveEffectType
  | statChange | statusCondition | healing
  deriving DecidableEq, Repr

/-- Target of a move effect, from the `moveEffect` model. -/
inductive EffectTarget
  | self | opponent
  deriving DecidableEq, Repr

/-- Stats affected by stat-changing moves, from the `moveEffect` model. -/
inductive AffectedStat
  | atk | defn | spAtk | spDef | speed | accuracy | evasion
  deriving DecidableEq, Repr

/-- A move's optional effect descriptor, from the `moveEffect` model. -/
structure MoveEffect where
  type : MoveEffectType
  target : EffectTarget
  stat : Option AffectedStat := none
  stages : Option ℤ := none
  condition : Option StatusCondition := none
  chance : Option ℚ := none
  deriving DecidableEq, Repr

/-- A battle move, from `entities.ts`. -/
structure Move where
  id : String
  name : String
  type : TType
  power : ℤ
  accuracy : ℚ
  category : Category
  effect : Option MoveEffect := none
  deriving DecidableEq, Repr

/-- Base stats, from `entities.ts` (`def` is spelled `defn`). -/
structure Stats where
  hp : ℤ
  atk : ℤ
  defn : ℤ
  spAtk : ℤ
  spDef : ℤ
  speed : ℤ
  deriving DecidableEq, Repr

/-- A combat-ready creature, from `entities.ts`; the optional battle-only
fields `statStages` and `statusCondition` come from the feature-005
contract extension of the Pokemon interface. -/
structure Pokemon where
  id : String
  name : String
  types : List TType
  level : ℤ
  stats : Stats
  currentHp : ℤ
  moves : List Move
  statStages : Option StatStages := none
  statusCondition : Option StatusConditionState := none
  deriving DecidableEq, Repr

/-- `STAGE_MULTIPLIERS` table from `teamBuilder.ts`. -/
def STAGE_MULTIPLIERS : List (ℤ × ℚ) :=
  [(-6, 2/8), (-5, 2/7), (-4, 2/6), (-3, 2/5), (-2, 2/4), (-1, 2/3),
   (0, 1), (1, 3/2), (2, 4/2), (3, 5/2), (4, 6/2), (5, 7/2), (6, 8/2)]

/-- `ACCURACY_EVASION_MULTIPLIERS` table from `teamBuilder.ts`. -/
def ACCURACY_EVASION_MULTIPLIERS : List (ℤ × ℚ) :=
  [(-6, 3/9), (-5, 3/8), (-4, 3/7), (-3, 3/6), (-2, 3/5), (-1, 3/4),
   (0, 1), (1, 4/3), (2, 5/3), (3, 6/3), (4, 7/3), (5, 8/3), (6, 9/3)]

/-- Key lookup in an association list, mirroring a JavaScript
`Record` / object-key access (`table[key]`). -/
def assocLookup {α β : Type} [DecidableEq α] : List (α × β) → α → Option β
  | [], _ => none
  | (k, v) :: rest, key => if k = key then some v else assocLookup rest key

/-- `getStageMultiplier` from `teamBuilder.ts`: clamp the stage to
[-6, 6], then look it up in the matching table, defaulting to 1. -/
def getStageMultiplier (stage : ℤ) (isAccuracyEvasion : Bool) : ℚ :=
  let clampedStage := max (-6) (min 6 stage)
  if isAccuracyEvasion then
    (assocLookup ACCURACY_EVASION_MULTIPLIERS clampedStage).getD 1
  else
    (assocLookup STAGE_MULTIPLIERS clampedStage).getD 1

/-- `applyStageChange` from `teamBuilder.ts`:
`Math.max(-6, Math.min(6, currentStage + change))`. -/
def applyStageChange (currentStage change : ℤ) : ℤ :=
  max (-6) (min 6 (currentStage + change))

/-- `calculateStatusDamage` from `statusCondition.ts`. -/
def calculateStatusDamage (maxHp : ℤ) (condition : StatusCondition)
    (poisonCounter : Option ℤ) : ℤ :=
  match condition with
  | .poison => ⌊(maxHp : ℚ) / 8⌋
  | .burn => ⌊(maxHp : ℚ) / 16⌋
  | .badlyPoisoned => ⌊((maxHp : ℚ) * ((poisonCounter.getD 1 : ℤ) : ℚ)) / 16⌋
  | _ => 0

/-- `TYPE_IMMUNITIES` from `statusCondition.ts`. -/
def TYPE_IMMUNITIES : StatusCondition → List String
  | .paralysis => ["electric"]
  | .sleep => []
  | .poison => ["poison", "steel"]
  | .burn => ["fire"]
  | .freeze => ["ice"]
  | .badlyPoisoned => ["poison", "steel"]

/-- `isImmuneToStatus` from `statusCondition.ts`. -/
def isImmuneToStatus (pokemonTypes : List TType)
    (condition : StatusCondition) : Bool :=
  pokemonTypes.any (fun t => (TYPE_IMMUNITIES condition).contains (typeLower t))

/-- The deterministic random source: a fixed stream of values (intended in
[0, 1)) together with a cursor; `next` reads the value under the cursor and
advances it.  This mirrors an imperative `rng.next()` consuming a stream. -/
structure Rng where
  vals : ℕ → ℚ
  idx : ℕ

/-- One draw from the stream. -/
def Rng.next (r : Rng) : ℚ × Rng :=
  (r.vals r.idx, { r with idx := r.idx + 1 })

/-- Modelled from the spec: `createSeededRng` (the PRNG source file
`domain/battle/calc/rng.ts` is not among the provided sources).  The spec
requires only a deterministic stream of values in [0, 1) reproducible from
the seed; a small linear-congruential stream is used. -/
def createSeededRng (seed : ℕ) : Rng :=
  ⟨fun n => (((seed * 1103515245 + n * 12345 + 12345) % 1000 : ℕ) : ℚ) / 1000, 0⟩

/-- Input record of `calculateDamage` from `damage.ts`
(the TypeScript field `def` is spelled `defn`). -/
structure DamageInput where
  level : ℤ
  power : ℤ
  atk : ℤ
  defn : ℤ
  category : Category
  multiplier : ℚ
  atkStageMultiplier : Option ℚ := none
  defStageMultiplier : Option ℚ := none
  statusAtkModifier : Option ℚ := none

/-- `calculateDamage` from `damage.ts`, returning the damage together with
the advanced rng (the source draws `rng.next()` exactly once). -/
def calculateDamage (input : DamageInput) (rng : Rng) : ℤ × Rng :=
  let atkStage := input.atkStageMultiplier.getD 1
  let defStage := input.defStageMultiplier.getD 1
  let statusMod := input.statusAtkModifier.getD 1
  let effectiveAtk : ℤ := ⌊(input.atk : ℚ) * atkStage * statusMod⌋
  let effectiveDef : ℤ := ⌊(input.defn : ℚ) * defStage⌋
  let levelFactor : ℤ := ⌊(2 * (input.level : ℚ)) / 5 + 2⌋
  let base : ℤ :=
    ⌊((levelFactor * input.power * effectiveAtk : ℤ) : ℚ) /
      (max 1 (effectiveDef : ℚ)) / 50⌋ + 2
  let p := rng.next
  let rand : ℚ := 85/100 + p.1 * (15/100)
  let total : ℤ := ⌊(base : ℚ) * input.multiplier * rand⌋
  (max 0 total, p.2)

/-- Modelled from the spec: the type-effectiveness lookup
(`domain/battle/calc/typeChart.ts` is not among the provided sources).
Per spec §4.2 the table is supplied externally, any missing pair defaults
to 1, and dual defending types multiply their two single-type multipliers. -/
def computeTypeMultiplier (chart : List ((TType × TType) × ℚ))
    (attacking : TType) (defending : List TType) : ℚ :=
  defending.foldl (fun acc t => acc * ((assocLookup chart (attacking, t)).getD 1)) 1

/-- Read one stage value out of a `StatStages` record. -/
def statStageGet (st : StatStages) : AffectedStat → ℤ
  | .atk => st.atk
  | .defn => st.defn
  | .spAtk => st.spAtk
  | .spDef => st.spDef
  | .speed => st.speed
  | .accuracy => st.accuracy
  | .evasion => st.evasion

/-- Write one stage value of a `StatStages` record. -/
def statStageSet (st : StatStages) (s : AffectedStat) (v : ℤ) : StatStages :=
  match s with
  | .atk => { st with atk := v }
  | .defn => { st with defn := v }
  | .spAtk => { st with spAtk := v }
  | .spDef => { st with spDef := v }
  | .speed => { st with speed := v }
  | .accuracy => { st with accuracy := v }
  | .evasion => { st with evasion := v }

/-- Replace a creature's stat stages (leaves HP, stats, moves untouched). -/
def withStages (p : Pokemon) (st : StatStages) : Pokemon :=
  { p with statStages := some st }

/-- Replace a creature's status condition (leaves HP, stats, moves untouched). -/
def withStatus (p : Pokemon) (sc : StatusConditionState) : Pokemon :=
  { p with statusCondition := some sc }

/-- Application message for a freshly applied condition, from the
`STATUS_EFFECTS` table of `statusCondition.ts`. -/
def statusApplyMessage (condition : StatusCondition) (name : String) : String :=
  match condition with
  | .paralysis => "¡" ++ name ++ " fue paralizado!"
  | .sleep => "¡" ++ name ++ " se quedó dormido!"
  | .poison => "¡" ++ name ++ " fue envenenado!"
  | .burn => "¡" ++ name ++ " fue quemado!"
  | .freeze => "¡" ++ name ++ " fue congelado!"
  | .badlyPoisoned => "¡" ++ name ++ " fue gravemente envenenado!"

/-- Result of resolving a move effect. -/
structure EffectOutcome where
  attacker : Pokemon
  defender : Pokemon
  applied : Bool
  message : Option String
  rng : Rng

/-- Modelled from the spec: `applyMoveEffect` of
`services/battle/battleEffectService.ts` (not among the provided sources).
Per spec §4.5: resolve the target, roll one draw against `chance`
(default 100); on failure return `applied = false` with no mutation.
A stat change goes through `applyStageChange` on the target's stage;
a status application is gated by the "already affected" check and type
immunity (`isImmuneToStatus`), sleep draws its 1-3 turn duration from the
rng, badly-poisoned starts its counter at 1; healing is unimplemented in
the MVP.  No branch changes any creature's `currentHp` or base stats. -/
def applyMoveEffect (effect : MoveEffect) (attacker defender : Pokemon)
    (rng : Rng) : EffectOutcome :=
  let p := rng.next
  let rng1 := p.2
  let chance := effect.chance.getD 100
  if ¬ (p.1 * 100 < chance) then
    ⟨attacker, defender, false, none, rng1⟩
  else
    match effect.type with
    | .statChange =>
      match effect.stat, effect.stages with
      | some st, some delta =>
        let tgt := if effect.target = .self then attacker else defender
        let stages := tgt.statStages.getD DEFAULT_STAT_STAGES
        let old := statStageGet stages st
        let nw := applyStageChange old delta
        let msg :=
          if nw = old then
            "¡La estadística de " ++ tgt.name ++ " no puede cambiar más!"
          else if 0 < delta then
            "¡La estadística de " ++ tgt.name ++ " subió!"
          else
            "¡La estadística de " ++ tgt.name ++ " bajó!"
        let tgt' := withStages tgt (statStageSet stages st nw)
        if effect.target = .self then
          ⟨tgt', defender, true, some msg, rng1⟩
        else
          ⟨attacker, tgt', true, some msg, rng1⟩
      | _, _ => ⟨attacker, defender, false, none, rng1⟩
    | .statusCondition =>
      match effect.condition with
      | none => ⟨attacker, defender, false, none, rng1⟩
      | some cond =>
        let tgt := if effect.target = .self then attacker else defender
        if tgt.statusCondition.isSome ∨ isImmuneToStatus tgt.types cond then
          ⟨attacker, defender, false,
            some ("¡No afecta a " ++ tgt.name ++ "!"), rng1⟩
        else
          match cond with
          | .sleep =>
            let q := rng1.next
            let tgt' := withStatus tgt
              ⟨.sleep, some (1 + ⌊q.1 * 3⌋), none⟩
            if effect.target = .self then
              ⟨tgt', defender, true, some (statusApplyMessage cond tgt.name), q.2⟩
            else
              ⟨attacker, tgt', true, some (statusApplyMessage cond tgt.name), q.2⟩
          | .badlyPoisoned =>
            let tgt' := withStatus tgt ⟨.badlyPoisoned, none, some 1⟩
            if effect.target = .self then
              ⟨tgt', defender, true, some (statusApplyMessage cond tgt.name), rng1⟩
            else
              ⟨attacker, tgt', true, some (statusApplyMessage cond tgt.name), rng1⟩
          | c =>
            let tgt' := withStatus tgt ⟨c, none, none⟩
            if effect.target = .self then
              ⟨tgt', defender, true, some (statusApplyMessage cond tgt.name), rng1⟩
            else
              ⟨attacker, tgt', true, some (statusApplyMessage cond tgt.name), rng1⟩
    | .healing => ⟨attacker, defender, false, none, rng1⟩

/-- `PLACEHOLDER_MOVE` from `battle.ts`. -/
def PLACEHOLDER_MOVE : Move :=
  { id := "placeholder-move", name := "Esperar", type := .normal,
    power := 0, accuracy := 100, category := .physical }

/-- `createPlaceholderPokemon` from `battle.ts`. -/
def placeholderPokemon : Pokemon :=
  { id := "placeholder-player", name := "Selecciona tu equipo",
    types := [.normal], level := 1,
    stats := { hp := 1, atk := 1, defn := 1, spAtk := 1, spDef := 1, speed := 1 },
    currentHp := 1, moves := [PLACEHOLDER_MOVE] }

/-- `clonePokemon` from `battle.ts`: copies exactly the listed fields, so
the battle-only `statStages` / `statusCondition` fields are dropped. -/
def clonePokemon (p : Pokemon) : Pokemon :=
  { id := p.id, name := p.name, types := p.types, level := p.level,
    stats := p.stats, currentHp := p.currentHp, moves := p.moves }

/-- Modelled from the spec: the AI policy (`strategicAI.ts` is not among
the provided sources).  Spec §4.7 fixes only the interface contract — the
returned id must belong to the attacker's move list — and explicitly
allows simple implementations; this model deterministically picks the
first move and consumes no rng. -/
def chooseMove (attacker _defender : Pokemon) (rng : Rng) : String × Rng :=
  ((attacker.moves.headD PLACEHOLDER_MOVE).id, rng)

/-- A battle side. -/
inductive Side
  | player | npc
  deriving DecidableEq, Repr

/-- The opposing side. -/
def Side.other : Side → Side
  | .player => .npc
  | .npc => .player

/-- Battle phase, from `entities.ts`. -/
inductive Phase
  | select | resolving | ended
  deriving DecidableEq, Repr

/-- The battle-store state, from `entities.ts` / `battle.ts`.  After
`createInitialState` the store's `player` / `npc` fields alias
`playerTeam[currentPlayerIndex]` / `npcTeam[currentNpcIndex]` (JavaScript
object references); the embedding therefore represents the active
creatures by their indices and derives them. -/
structure BattleState where
  turn : ℕ
  phase : Phase
  playerTeam : List Pokemon
  npcTeam : List Pokemon
  currentPlayerIndex : ℕ
  currentNpcIndex : ℕ
  winner : Option Side
  log : List String
  deriving DecidableEq, Repr

/-- The active player creature (`this.player`). -/
def BattleState.player (s : BattleState) : Pokemon :=
  (s.playerTeam[s.currentPlayerIndex]?).getD placeholderPokemon

/-- The active npc creature (`this.npc`). -/
def BattleState.npc (s : BattleState) : Pokemon :=
  (s.npcTeam[s.currentNpcIndex]?).getD placeholderPokemon

/-- Write through the active-player alias. -/
def BattleState.setPlayer (s : BattleState) (p : Pokemon) : BattleState :=
  { s with playerTeam := s.playerTeam.set s.currentPlayerIndex p }

/-- Write through the active-npc alias. -/
def BattleState.setNpc (s : BattleState) (p : Pokemon) : BattleState :=
  { s with npcTeam := s.npcTeam.set s.currentNpcIndex p }

/-- The active creature of a side. -/
def BattleState.active (s : BattleState) : Side → Pokemon
  | .player => s.player
  | .npc => s.npc

/-- Write through the active alias of a side. -/
def BattleState.setActive (s : BattleState) : Side → Pokemon → BattleState
  | .player => s.setPlayer
  | .npc => s.setNpc

/-- Append one entry to the battle log (`this.log.push`). -/
def BattleState.pushLog (s : BattleState) (m : String) : BattleState :=
  { s with log := s.log ++ [m] }

/-- `startBattle` from `battle.ts` (the pure part: the type-chart fetch
only issues console warnings).  Deep-clones both rosters, rejects empty
rosters with descriptive errors, resets every creature to full HP, and
builds the initial session (indices 0, turn 1, phase `select`, no winner,
empty log, per `createInitialState` and the subsequent `$patch`). -/
def startBattle (playerTeam npcTeam : List Pokemon) : Except String BattleState :=
  let playerTeamClone := playerTeam.map clonePokemon
  let npcTeamClone := npcTeam.map clonePokemon
  if playerTeamClone.length = 0 then
    Except.error "Cannot start battle: player team is empty"
  else if npcTeamClone.length = 0 then
    Except.error "Cannot start battle: NPC team is empty"
  else
    let pt := playerTeamClone.map (fun p => { p with currentHp := p.stats.hp })
    let nt := npcTeamClone.map (fun p => { p with currentHp := p.stats.hp })
    Except.ok
      { turn := 1, phase := .select, playerTeam := pt, npcTeam := nt,
        currentPlayerIndex := 0, currentNpcIndex := 0,
        winner := none, log := [] }

/-- `findIndex((p, idx) => idx > current && p.currentHp > 0)` from the two
switch actions of `battle.ts`: the first index strictly after `current`
holding a creature with positive HP. -/
def findNextAlive (team : List Pokemon) (current : ℕ) : Option ℕ :=
  (List.range team.length).find?
    (fun i => decide (current < i) && decide (0 < ((team[i]?).getD placeholderPokemon).currentHp))

/-- `switchNpcPokemon` from `battle.ts`. -/
def switchNpcPokemon (s : BattleState) : BattleState :=
  match findNextAlive s.npcTeam s.currentNpcIndex with
  | some nextIndex =>
    let s' := { s with currentNpcIndex := nextIndex }
    s'.pushLog ("¡El rival envió a " ++ s'.npc.name ++ "!")
  | none => { s with winner := some Side.player }

/-- `switchPlayerPokemon` from `battle.ts`. -/
def switchPlayerPokemon (s : BattleState) : BattleState :=
  match findNextAlive s.playerTeam s.currentPlayerIndex with
  | some nextIndex =>
    let s' := { s with currentPlayerIndex := nextIndex }
    s'.pushLog ("¡Adelante, " ++ s'.player.name ++ "!")
  | none => { s with winner := some Side.npc }

/-- The accuracy check of `executeAttack` (`battle.ts` line 309-310):
`hit = rng.next() * 100 <= move.accuracy`. -/
def accuracyHit (roll accuracy : ℚ) : Bool :=
  decide (roll * 100 ≤ accuracy)

/-- `executeAttack` from `battle.ts` (presentation delays dropped): the
accuracy check, miss / announce logging, the status-move branch (effect
only), and the damaging branch (type multiplier, effectiveness logging,
`calculateDamage`, HP subtraction clamped at 0, post-damage effect, faint
logging). -/
def executeAttack (chart : List ((TType × TType) × ℚ)) (s : BattleState)
    (attackerSide : Side) (move : Move) (rng : Rng) : BattleState × Rng :=
  let attacker := s.active attackerSide
  let p := rng.next
  let rng1 := p.2
  if accuracyHit p.1 move.accuracy then
    let s1 := s.pushLog ("¡" ++ attacker.name ++ " usó " ++ move.name ++ "!")
    if move.category = Category.status ∨ move.power = 0 then
      match move.effect with
      | none => (s1, rng1)
      | some eff =>
        let defender := s1.active attackerSide.other
        let out := applyMoveEffect eff attacker defender rng1
        let s2 := (s1.setActive attackerSide out.attacker).setActive
          attackerSide.other out.defender
        let s3 :=
          match out.message with
          | some msg => if out.applied then s2.pushLog msg else s2
          | none => s2
        (s3, out.rng)
    else
      let defender := s1.active attackerSide.other
      let effectiveness := computeTypeMultiplier chart move.type defender.types
      let s2 := if effectiveness = 2 then s1.pushLog "¡Es súper efectivo!" else s1
      let s3 := if effectiveness = 1/2 then s2.pushLog "No es muy efectivo..." else s2
      let s4 := if effectiveness = 0 then s3.pushLog "¡No tiene efecto!" else s3
      let atk := if move.category = Category.physical then attacker.stats.atk
        else attacker.stats.spAtk
      let defStat := if move.category = Category.physical then defender.stats.defn
        else defender.stats.spDef
      let dmgOut := calculateDamage
        { level := attacker.level, power := move.power, atk := atk,
          defn := defStat, category := move.category,
          multiplier := effectiveness } rng1
      let damage := dmgOut.1
      let defender1 := { defender with currentHp := max 0 (defender.currentHp - damage) }
      let s5 := s4.setActive attackerSide.other defender1
      let s6 := s5.pushLog
        ("¡" ++ defender1.name ++ " recibió " ++ toString damage ++ " puntos de daño!")
      let afterEffect : BattleState × Rng :=
        match move.effect with
        | none => (s6, dmgOut.2)
        | some eff =>
          let out := applyMoveEffect eff attacker defender1 dmgOut.2
          let s7 := (s6.setActive attackerSide out.attacker).setActive
            attackerSide.other out.defender
          let s8 :=
            match out.message with
            | some msg => if out.applied then s7.pushLog msg else s7
            | none => s7
          (s8, out.rng)
      let s9 := afterEffect.1
      let defenderFinal := s9.active attackerSide.other
      if defenderFinal.currentHp ≤ 0 then
        (s9.pushLog ("¡" ++ defenderFinal.name ++ " se debilitó!"), afterEffect.2)
      else
        (s9, afterEffect.2)
  else
    (s.pushLog ("¡" ++ attacker.name ++ " falló el ataque!"), rng1)

/-- The turn-order comparison of `selectPlayerMove` (`battle.ts` line 202):
`playerFirst = this.player.stats.speed >= this.npc.stats.speed`. -/
def playerFirstCheck (player npc : Pokemon) : Bool :=
  decide (npc.stats.speed ≤ player.stats.speed)

/-- The player-acts-first half of `selectPlayerMove` (`battle.ts`
lines 213-231): player attack, faint-triggered NPC switch, then — if the
(possibly new) NPC is alive and no winner is set — the NPC attack and a
faint-triggered player switch. -/
def resolvePlayerFirst (chart : List ((TType × TType) × ℚ)) (s0 : BattleState)
    (playerMove npcMove : Move) (rng : Rng) : BattleState :=
  let r1 := executeAttack chart s0 Side.player playerMove rng
  let s2 := if r1.1.npc.currentHp ≤ 0 ∧ r1.1.winner = none then
    switchNpcPokemon r1.1 else r1.1
  if 0 < s2.npc.currentHp ∧ s2.winner = none then
    let r2 := executeAttack chart s2 Side.npc npcMove r1.2
    if r2.1.player.currentHp ≤ 0 ∧ r2.1.winner = none then
      switchPlayerPokemon r2.1 else r2.1
  else s2

/-- The NPC-acts-first half of `selectPlayerMove` (`battle.ts`
lines 232-251), symmetric to `resolvePlayerFirst`. -/
def resolveNpcFirst (chart : List ((TType × TType) × ℚ)) (s0 : BattleState)
    (playerMove npcMove : Move) (rng : Rng) : BattleState :=
  let r1 := executeAttack chart s0 Side.npc npcMove rng
  let s2 := if r1.1.player.currentHp ≤ 0 ∧ r1.1.winner = none then
    switchPlayerPokemon r1.1 else r1.1
  if 0 < s2.player.currentHp ∧ s2.winner = none then
    let r2 := executeAttack chart s2 Side.player playerMove r1.2
    if r2.1.npc.currentHp ≤ 0 ∧ r2.1.winner = none then
      switchNpcPokemon r2.1 else r2.1
  else s2

/-- `selectPlayerMove` from `battle.ts` (presentation delays dropped): the
phase / winner guard, the phase flip to `resolving`, the per-turn seeded
rng, the silent return on an unknown move id, speed-based ordering, the
two sequential attacks with faint-triggered switching (the two orderings
split into `resolvePlayerFirst` / `resolveNpcFirst`), and the final
winner / turn-increment bookkeeping. -/
def selectPlayerMove (chart : List ((TType × TType) × ℚ)) (s : BattleState)
    (moveId : String) (seed : ℕ) : BattleState :=
  if s.phase ≠ Phase.select ∨ s.winner ≠ none then s
  else
    let s0 := { s with phase := Phase.resolving }
    let rng := createSeededRng seed
    match s0.player.moves.find? (fun m => m.id = moveId) with
    | none => s0
    | some playerMove =>
      let playerFirst := playerFirstCheck s0.player s0.npc
      let aiOut := chooseMove s0.npc s0.player rng
      let npcMove := (s0.npc.moves.find? (fun m => m.id = aiOut.1)).getD
        (s0.npc.moves.headD PLACEHOLDER_MOVE)
      let after :=
        if playerFirst then resolvePlayerFirst chart s0 playerMove npcMove aiOut.2
        else resolveNpcFirst chart s0 playerMove npcMove aiOut.2
      match after.winner with
      | some w =>
        { after with
          log := after.log ++
            [if w = Side.player then "¡Ganaste la batalla!" else "¡Perdiste la batalla!"],
          phase := Phase.ended }
      | none => { after with turn := after.turn + 1, phase := Phase.select }

/-- A full battle: fold `selectPlayerMove` over the submitted move ids
(the store re-creates the rng from the fixed seed each turn). -/
def runBattle (chart : List ((TType × TType) × ℚ)) (seed : ℕ)
    (s0 : BattleState) (choices : List String) : BattleState :=
  choices.foldl (fun s m => selectPlayerMove chart s m seed) s0

/-! ### Concrete fixtures used by counterexamples and witnesses -/

/-- A damaging move that the data layer marks as never-missing
(`accuracy = 0`, cf. `transformPokeAPIToMove`: `accuracy ?? 0, 0 = always-hit`). -/
def zeroAccMove : Move :=
  { id := "swift", name := "Swift", type := .normal, power := 50,
    accuracy := 0, category := .physical }

/-- An effect-free status move (no damage, no effect). -/
def waitMove : Move :=
  { id := "wait", name := "Esperar", type := .normal, power := 0,
    accuracy := 100, category := .status }

/-- A plain 100-accuracy physical move. -/
def hitMove : Move :=
  { id := "hit", name := "Golpe", type := .normal, power := 50,
    accuracy := 100, category := .physical }

/-- Attacker equipped with the 0-accuracy move. -/
def swiftster : Pokemon :=
  { id := "p1", name := "Swiftster", types := [.normal], level := 50,
    stats := { hp := 20, atk := 10, defn := 10, spAtk := 10, spDef := 10, speed := 10 },
    currentHp := 20, moves := [zeroAccMove] }

/-- A slow, passive opponent. -/
def calmNpc : Pokemon :=
  { id := "n1", name := "Calma", types := [.normal], level := 50,
    stats := { hp := 10, atk := 10, defn := 10, spAtk := 10, spDef := 10, speed := 5 },
    currentHp := 10, moves := [waitMove] }

/-- Battle state with `swiftster` active against `calmNpc`. -/
def zeroAccState : BattleState :=
  { turn := 1, phase := .select, playerTeam := [swiftster], npcTeam := [calmNpc],
    currentPlayerIndex := 0, currentNpcIndex := 0, winner := none, log := [] }

/-! ### C1 -/

/-- C1: the claim says a 0-accuracy move always hits and is never logged
as a miss.  The code computes `hit = rng.next() * 100 <= move.accuracy`
with no special case for 0, so with a roll of 0.5 a 0-accuracy move
*misses* and the miss is logged — contradicting the data layer's own
documentation ("0 = always-hit") and the spec.  This theorem evaluates
the embedded `executeAttack` at the failing input: the accuracy check
fails, the miss message is logged, and the defender is untouched. -/
theorem c1_zero_accuracy_move_misses :
    accuracyHit (1/2) 0 = false ∧
    (executeAttack [] zeroAccState Side.player zeroAccMove ⟨fun _ => 1/2, 0⟩).1.log
      = ["¡Swiftster falló el ataque!"] ∧
    (executeAttack [] zeroAccState Side.player zeroAccMove ⟨fun _ => 1/2, 0⟩).1.npc.currentHp
      = 10 := by
  refine ⟨by norm_num [accuracyHit], ?_, ?_⟩ <;>
    norm_num +decide [executeAttack, zeroAccState, swiftster, calmNpc, zeroAccMove,
      accuracyHit, Rng.next, BattleState.active, BattleState.player, BattleState.npc,
      BattleState.pushLog, placeholderPokemon]

/-! ### C3 -/

/-- The claim's notion of *effective* speed, written from the spec's words
("base speed × speed-stage multiplier, halved again if paralyzed").  This
definition follows the specification, not the source — the source has no
such computation — and exists only to be compared with the source's
`playerFirstCheck`. -/
def specEffectiveSpeed (p : Pokemon) : ℚ :=
  (p.stats.speed : ℚ) *
    getStageMultiplier ((p.statStages.getD DEFAULT_STAT_STAGES).speed) false *
    (if p.statusCondition.map (fun sc => sc.condition) = some StatusCondition.paralysis
      then 1/2 else 1)

/-- A creature with high base speed whose speed stage is at -6
(spec effective speed 100 x 1/4 = 25). -/
def loweredSpeedster : Pokemon :=
  { id := "ls", name := "Lowered", types := [.normal], level := 50,
    stats := { hp := 20, atk := 10, defn := 10, spAtk := 10, spDef := 10, speed := 100 },
    currentHp := 20, moves := [waitMove],
    statStages := some { DEFAULT_STAT_STAGES with speed := -6 } }

/-- An unmodified creature with base speed 60. -/
def mediumNpc : Pokemon :=
  { id := "mn", name := "Medium", types := [.normal], level := 50,
    stats := { hp := 20, atk := 10, defn := 10, spAtk := 10, spDef := 10, speed := 60 },
    currentHp := 20, moves := [waitMove] }

/-- C3 counterexample: the claim says the creature with higher *effective*
speed (stage multiplier and paralysis halving applied) acts first.  The
source's order check `playerFirstCheck` compares raw base speeds only: a
player at base speed 100 with speed stage -6 (effective 25) still acts
before an opponent with effective speed 60. -/
theorem c3_effective_speed_counterexample :
    playerFirstCheck loweredSpeedster mediumNpc = true ∧
    specEffectiveSpeed loweredSpeedster < specEffectiveSpeed mediumNpc := by
  constructor
  · decide
  · norm_num +decide [specEffectiveSpeed, loweredSpeedster, mediumNpc, getStageMultiplier,
      assocLookup, STAGE_MULTIPLIERS, DEFAULT_STAT_STAGES]

/-- C3 amended: attack order is decided by comparing the two active
creatures' *raw base* speed stats — stat stages and status conditions are
ignored by the comparison — and the player acts first exactly when its
base speed is greater than or equal to the opponent's (the "≥" favoring
the player on exact ties). -/
theorem c3_raw_speed_order (p n : Pokemon) (st1 st2 : Option StatStages)
    (sc1 sc2 : Option StatusConditionState) :
    playerFirstCheck { p with statStages := st1, statusCondition := sc1 }
        { n with statStages := st2, statusCondition := sc2 }
      = decide (n.stats.speed ≤ p.stats.speed) ∧
    (p.stats.speed = n.stats.speed → playerFirstCheck p n = true) := by
  refine ⟨rfl, fun h => ?_⟩
  simp [playerFirstCheck, h]

/-- Witness for `c3_raw_speed_order` at a concrete speed tie. -/
theorem c3_raw_speed_order_witness :
    playerFirstCheck placeholderPokemon placeholderPokemon = true :=
  (c3_raw_speed_order placeholderPokemon placeholderPokemon none none none none).2 rfl

/-! ### C6 -/

/-- Flooring an integer-floored rational again after dividing by 50 agrees
with dividing the rational by 50 directly and flooring once. -/
lemma floor_intCast_div_fifty (q : ℚ) : ⌊((⌊q⌋ : ℚ) / 50)⌋ = ⌊q / 50⌋ := by
  have h1 : ⌊((⌊q⌋ : ℚ) / 50)⌋ = ⌊q⌋ / (50 : ℤ) := by
    have := Rat.floor_intCast_div_natCast ⌊q⌋ 50
    simpa using this
  have h2 : ⌊q / 50⌋ = ⌊q⌋ / (50 : ℤ) := by
    apply le_antisymm
    · rw [Int.le_ediv_iff_mul_le (by norm_num)]
      have hf : (⌊q / 50⌋ : ℚ) ≤ q / 50 := Int.floor_le _
      have h : ((⌊q / 50⌋ * 50 : ℤ) : ℚ) ≤ q := by
        push_cast
        calc ((⌊q / 50⌋ : ℚ)) * 50 ≤ (q / 50) * 50 := by
              apply mul_le_mul_of_nonneg_right hf (by norm_num)
          _ = q := by field_simp
      exact Int.le_floor.mpr h
    · rw [Int.le_floor]
      rw [le_div_iff₀ (by norm_num : (0:ℚ) < 50)]
      have h : ((⌊q⌋ / 50 * 50 : ℤ) : ℚ) ≤ (⌊q⌋ : ℚ) := by
        exact_mod_cast Int.ediv_mul_le ⌊q⌋ (by norm_num)
      calc ((⌊q⌋ / 50 : ℤ) : ℚ) * 50 = ((⌊q⌋ / 50 * 50 : ℤ) : ℚ) := by push_cast; ring
        _ ≤ (⌊q⌋ : ℚ) := h
        _ ≤ q := Int.floor_le q
  rw [h1, h2]

/-- C6: for all inputs, `calculateDamage` consumes exactly one rng draw
(the returned stream cursor advances by one) and returns
`max(0, floor(base × typeMultiplier × randomFactor))` with
`effectiveAtk = floor(atk × atkStageMult × statusAtkModifier)`,
`effectiveDef = floor(def × defStageMult)`,
`levelFactor = floor(2×level/5 + 2)`,
`base = floor(floor(levelFactor × power × effectiveAtk / max(1, effectiveDef)) / 50) + 2`,
and `randomFactor = 0.85 + rng.next() × 0.15`, exactly as the claim
states (including the claim's nested double floor in `base`). -/
theorem c6_calculateDamage_spec (i : DamageInput) (rng : Rng) :
    let effectiveAtk : ℤ :=
      ⌊(i.atk : ℚ) * i.atkStageMultiplier.getD 1 * i.statusAtkModifier.getD 1⌋
    let effectiveDef : ℤ := ⌊(i.defn : ℚ) * i.defStageMultiplier.getD 1⌋
    let levelFactor : ℤ := ⌊2 * (i.level : ℚ) / 5 + 2⌋
    let base : ℤ :=
      ⌊((⌊((levelFactor * i.power * effectiveAtk : ℤ) : ℚ) /
          max 1 ((effectiveDef : ℤ) : ℚ)⌋ : ℤ) : ℚ) / 50⌋ + 2
    let randomFactor : ℚ := 85/100 + rng.vals rng.idx * (15/100)
    calculateDamage i rng =
      (max 0 ⌊(base : ℚ) * i.multiplier * randomFactor⌋,
       { rng with idx := rng.idx + 1 }) := by
  simp only [calculateDamage, Rng.next]
  rw [floor_intCast_div_fifty]

/-! ### C8 -/

/-- C8 counterexample: the claim says `applyChange` clamps *and reports
whether clamping occurred*.  The source's `applyStageChange` returns only
the clamped integer: the clamping call `applyStageChange 6 1` (where
6 + 1 exceeds the cap) and the non-clamping call `applyStageChange 6 0`
return the identical value 6, so the return value carries no clamping
indication at all. -/
theorem c8_no_clamp_report_counterexample :
    applyStageChange 6 1 = 6 ∧ applyStageChange 6 0 = 6 ∧
    ¬ ((6 : ℤ) + 1 ≤ 6) ∧ ((6 : ℤ) + 0 ≤ 6) := by
  refine ⟨by decide, by decide, by decide, by decide⟩

/-- C8 amended: for every current stage and every integer delta,
`applyStageChange` returns exactly the sum clamped into [-6, 6] (and in
particular its result always lies in [-6, 6]); it returns only that value
and no clamping indication. -/
theorem c8_applyStageChange_clamps (s d : ℤ) :
    applyStageChange s d = max (-6) (min 6 (s + d)) ∧
    -6 ≤ applyStageChange s d ∧ applyStageChange s d ≤ 6 := by
  refine ⟨rfl, le_max_left _ _, ?_⟩
  exact max_le (by norm_num) (min_le_left _ _)

/-! ### C10 -/

/-- C10: `getStageMultiplier` is total: for every integer stage (also
outside [-6, 6]) and either table flag, the clamped stage always finds a
key in the corresponding multiplier table (the `?? 1` fallback is never
needed) and the function returns that table value. -/
theorem c10_getStageMultiplier_total (stage : ℤ) (flag : Bool) :
    ∃ m : ℚ,
      assocLookup (if flag then ACCURACY_EVASION_MULTIPLIERS else STAGE_MULTIPLIERS)
        (max (-6) (min 6 stage)) = some m ∧
      getStageMultiplier stage flag = m := by
  simp only [getStageMultiplier]
  have h1 : -6 ≤ max (-6) (min 6 stage) := le_max_left _ _
  have h2 : max (-6) (min 6 stage) ≤ 6 := max_le (by norm_num) (min_le_left _ _)
  generalize hgen : max (-6) (min 6 stage) = c at h1 h2 ⊢
  interval_cases c <;> cases flag <;> exact ⟨_, rfl, rfl⟩

/-! ### C2 -/

/-- A status-category move with no damage and no effect leaves everything
but the log untouched: `executeAttack` either logs the miss or logs the
announcement and skips both the damage branch and the (absent) effect. -/
lemma executeAttack_status_noop (chart : List ((TType × TType) × ℚ)) (s : BattleState)
    (side : Side) (mv : Move) (rng : Rng)
    (hcat : mv.category = Category.status) (heff : mv.effect = none) :
    (executeAttack chart s side mv rng).1 =
      s.pushLog (if accuracyHit (rng.vals rng.idx) mv.accuracy
        then "¡" ++ (s.active side).name ++ " usó " ++ mv.name ++ "!"
        else "¡" ++ (s.active side).name ++ " falló el ataque!") := by
  simp only [executeAttack, hcat, heff, Rng.next]
  by_cases hacc : accuracyHit (rng.vals rng.idx) mv.accuracy <;> simp [hacc]

/-- An active creature poisoned before the turn (maxHp 8, full HP). -/
def poisonedMon : Pokemon :=
  { id := "pz", name := "Veneno", types := [.grass], level := 50,
    stats := { hp := 8, atk := 10, defn := 10, spAtk := 10, spDef := 10, speed := 10 },
    currentHp := 8, moves := [waitMove],
    statusCondition := some ⟨.poison, none, none⟩ }

/-- Battle state with the poisoned creature active on the player side. -/
def c2State : BattleState :=
  { turn := 1, phase := .select, playerTeam := [poisonedMon], npcTeam := [calmNpc],
    currentPlayerIndex := 0, currentNpcIndex := 0, winner := none, log := [] }

/-- C2 counterexample: a turn resolves with no winner while the active
player creature is poisoned (maxHp 8, so the claimed poison tick is
`⌊8/8⌋ = 1` and the claimed end-of-turn HP is 7), yet the engine leaves
its HP At 8 and its status state untouched while the turn counter
increments: `selectPlayerMove` applies no end-of-turn status tick at all
(`calculateStatusDamage` is never invoked by the store). -/
theorem c2_no_tick_counterexample :
    (selectPlayerMove [] c2State "wait" 0).winner = none ∧
    (selectPlayerMove [] c2State "wait" 0).turn = 2 ∧
    (selectPlayerMove [] c2State "wait" 0).player.currentHp = 8 ∧
    (selectPlayerMove [] c2State "wait" 0).player.statusCondition
      = some ⟨.poison, none, none⟩ ∧
    calculateStatusDamage 8 .poison none = 1 ∧ (8 : ℤ) - 1 ≠ 8 := by
  refine ⟨?_, ?_, ?_, ?_, by norm_num [calculateStatusDamage], by norm_num⟩ <;>
    norm_num +decide [selectPlayerMove, resolvePlayerFirst, resolveNpcFirst,
      executeAttack, c2State, poisonedMon, calmNpc,
      waitMove, BattleState.player, BattleState.npc, BattleState.pushLog,
      BattleState.setActive, BattleState.setPlayer, BattleState.setNpc,
      BattleState.active, Side.other, playerFirstCheck, chooseMove, accuracyHit,
      createSeededRng, Rng.next, switchNpcPokemon, switchPlayerPokemon, findNextAlive,
      PLACEHOLDER_MOVE, placeholderPokemon, List.find?, List.range]

/-- C2 amended: the status-damage function computes exactly the claimed
amounts — poison `⌊maxHp/8⌋`, burn `⌊maxHp/16⌋`, badly-poisoned
`⌊maxHp·counter/16⌋`, all other conditions 0 — but the turn-resolution
path applies no end-of-turn status tick: a resolved turn in which both
chosen moves are effect-free status moves and both active creatures stay
alive ends with both teams (HP, status, counters) byte-identical, no
winner set, and only the turn counter incremented. -/
theorem c2_status_damage_formula_but_no_tick :
    (∀ (maxHp c : ℤ) (pc : Option ℤ),
      calculateStatusDamage maxHp .poison pc = ⌊(maxHp : ℚ) / 8⌋ ∧
      calculateStatusDamage maxHp .burn pc = ⌊(maxHp : ℚ) / 16⌋ ∧
      calculateStatusDamage maxHp .badlyPoisoned (some c) = ⌊((maxHp : ℚ) * c) / 16⌋ ∧
      calculateStatusDamage maxHp .paralysis pc = 0 ∧
      calculateStatusDamage maxHp .sleep pc = 0 ∧
      calculateStatusDamage maxHp .freeze pc = 0) ∧
    (∀ (chart : List ((TType × TType) × ℚ)) (s : BattleState)
      (mid : String) (seed : ℕ) (pm nm : Move) (rest : List Move),
      s.phase = Phase.select → s.winner = none →
      s.player.moves.find? (fun m => m.id = mid) = some pm →
      pm.category = Category.status → pm.effect = none →
      s.npc.moves = nm :: rest →
      nm.category = Category.status → nm.effect = none →
      0 < s.player.currentHp → 0 < s.npc.currentHp →
      (selectPlayerMove chart s mid seed).playerTeam = s.playerTeam ∧
      (selectPlayerMove chart s mid seed).npcTeam = s.npcTeam ∧
      (selectPlayerMove chart s mid seed).winner = none ∧
      (selectPlayerMove chart s mid seed).turn = s.turn + 1) := by
  constructor
  · intro maxHp c pc
    refine ⟨rfl, rfl, by simp [calculateStatusDamage], rfl, rfl, rfl⟩
  intro chart s mid seed pm nm rest hphase hwinner hfind hpcat hpeff hnpc hncat hneff hphp hnhp
  have hguard : ¬(s.phase ≠ Phase.select ∨ s.winner ≠ none) := by
    simp [hphase, hwinner]
  have hplayer : BattleState.player { s with phase := Phase.resolving } = s.player := rfl
  have hnpcSt : BattleState.npc { s with phase := Phase.resolving } = s.npc := rfl
  simp only [selectPlayerMove, if_neg hguard, hplayer, hnpcSt, hfind, chooseMove, hnpc]
  have hfn : (nm :: rest).find? (fun m => m.id = ((nm :: rest).headD PLACEHOLDER_MOVE).id)
      = some nm := by simp [List.find?_cons]
  simp only [List.headD_cons] at hfn ⊢
  rw [hfn]
  simp only [Option.getD_some]
  rcases Bool.eq_false_or_eq_true (playerFirstCheck s.player s.npc) with hpf | hpf <;>
    simp only [hpf, Bool.false_eq_true, if_true, if_false, resolvePlayerFirst, resolveNpcFirst]
  · rw [executeAttack_status_noop chart _ Side.npc nm _ hncat hneff]
    rw [executeAttack_status_noop chart _ Side.player pm _ hpcat hpeff]
    have hA := not_le.mpr hnhp
    have hB := not_le.mpr hphp
    have hC := hnhp
    have hD := hphp
    simp only [BattleState.player, BattleState.npc, BattleState.active] at hA hB hC hD hwinner
    simp [BattleState.pushLog, BattleState.player, BattleState.npc, BattleState.active,
      hA, hB, hC, hD, hwinner]
  · rw [executeAttack_status_noop chart _ Side.npc nm _ hncat hneff]
    rw [executeAttack_status_noop chart _ Side.player pm _ hpcat hpeff]
    have hA := not_le.mpr hnhp
    have hB := not_le.mpr hphp
    have hC := hnhp
    have hD := hphp
    simp only [BattleState.player, BattleState.npc, BattleState.active] at hA hB hC hD hwinner
    simp [BattleState.pushLog, BattleState.player, BattleState.npc, BattleState.active,
      hA, hB, hC, hD, hwinner]

/-- Witness for `c2_status_damage_formula_but_no_tick` at a concrete
poison-free double-status-move turn. -/
theorem c2_status_damage_formula_but_no_tick_witness :
    calculateStatusDamage 16 .poison none = 2 ∧
    (selectPlayerMove [] c2State "wait" 7).playerTeam = c2State.playerTeam ∧
    (selectPlayerMove [] c2State "wait" 7).npcTeam = c2State.npcTeam ∧
    (selectPlayerMove [] c2State "wait" 7).winner = none ∧
    (selectPlayerMove [] c2State "wait" 7).turn = c2State.turn + 1 := by
  have h := c2_status_damage_formula_but_no_tick
  have ha := (h.1 16 1 none).1
  have hb := h.2 [] c2State "wait" 7 waitMove waitMove []
    rfl rfl (by rfl) rfl rfl (by rfl) rfl rfl
    (by norm_num [c2State, BattleState.player, poisonedMon])
    (by norm_num [c2State, BattleState.npc, calmNpc])
  refine ⟨by rw [ha]; norm_num, hb.1, hb.2.1, hb.2.2.1, hb.2.2.2⟩

/-! ### C4 -/

/-- C4 counterexample: submitting a move id that is not on the active
creature's move list does *not* raise any error — `selectPlayerMove`
returns silently — and it *does* mutate battle state: the phase has
already been flipped to `resolving` and stays there.  (In the embedding
`selectPlayerMove` is a total function into `BattleState`: the source
method has no throw on this path.) -/
theorem c4_unknown_move_counterexample :
    (selectPlayerMove [] zeroAccState "nope" 0).phase = Phase.resolving ∧
    zeroAccState.phase = Phase.select ∧
    selectPlayerMove [] zeroAccState "nope" 0 ≠ zeroAccState := by
  have hphase : (selectPlayerMove [] zeroAccState "nope" 0).phase = Phase.resolving := by
    norm_num +decide [selectPlayerMove, zeroAccState, swiftster, zeroAccMove,
      BattleState.player, placeholderPokemon, List.find?]
  refine ⟨hphase, rfl, fun h => ?_⟩
  rw [h] at hphase
  exact Phase.noConfusion hphase

/-- C4 amended: starting a battle with an empty roster fails fast with a
descriptive error before any state is built (either side); but submitting
an unknown move id raises no error at all — the engine silently returns
after having already mutated the phase to `resolving`. -/
theorem c4_error_behavior :
    (∀ npcTeam : List Pokemon,
      startBattle [] npcTeam = Except.error "Cannot start battle: player team is empty") ∧
    (∀ playerTeam : List Pokemon, playerTeam ≠ [] →
      startBattle playerTeam [] = Except.error "Cannot start battle: NPC team is empty") ∧
    (∀ (chart : List ((TType × TType) × ℚ)) (s : BattleState) (mid : String) (seed : ℕ),
      s.phase = Phase.select → s.winner = none →
      s.player.moves.find? (fun m => m.id = mid) = none →
      selectPlayerMove chart s mid seed = { s with phase := Phase.resolving }) := by
  refine ⟨fun npcTeam => rfl, fun playerTeam hne => ?_, ?_⟩
  · match playerTeam, hne with
    | p :: rest, _ => rfl
  intro chart s mid seed hphase hwinner hfind
  have hguard : ¬(s.phase ≠ Phase.select ∨ s.winner ≠ none) := by
    simp [hphase, hwinner]
  have hplayer : BattleState.player { s with phase := Phase.resolving } = s.player := rfl
  simp only [selectPlayerMove, if_neg hguard, hplayer, hfind]

/-- Witness for `c4_error_behavior` at concrete rosters and a concrete
unknown move id. -/
theorem c4_error_behavior_witness :
    startBattle [] [] = Except.error "Cannot start battle: player team is empty" ∧
    startBattle [swiftster] [] = Except.error "Cannot start battle: NPC team is empty" ∧
    selectPlayerMove [] zeroAccState "nope" 0 = { zeroAccState with phase := Phase.resolving } := by
  have h := c4_error_behavior
  refine ⟨h.1 [], h.2.1 [swiftster] (by simp), h.2.2 [] zeroAccState "nope" 0 rfl rfl ?_⟩
  rfl

/-! ### C5 -/

/-- `findNextAlive team current = none` says exactly that no roster slot
*strictly after* `current` holds a creature with positive HP — it says
nothing about the slots at or before `current`. -/
lemma findNextAlive_none_iff (team : List Pokemon) (current : ℕ) :
    findNextAlive team current = none ↔
      ∀ i, current < i → i < team.length →
        ((team[i]?).getD placeholderPokemon).currentHp ≤ 0 := by
  simp only [findNextAlive, List.find?_eq_none, List.mem_range, Bool.and_eq_true,
    decide_eq_true_eq, not_and, not_lt]
  exact ⟨fun h i h1 h2 => h i h2 h1, fun h i h2 h1 => h i h1 h2⟩

/-- A successful `findNextAlive` search lands strictly after `current` on
an alive creature within the roster. -/
lemma findNextAlive_some (team : List Pokemon) (current n : ℕ)
    (h : findNextAlive team current = some n) :
    current < n ∧ 0 < ((team[n]?).getD placeholderPokemon).currentHp ∧ n < team.length := by
  have hmem := List.mem_of_find?_eq_some h
  have hp := List.find?_some h
  simp only [List.mem_range] at hmem
  simp only [Bool.and_eq_true, decide_eq_true_eq] at hp
  exact ⟨hp.1, hp.2, hmem⟩

/-- Roster slot 0: a healthy teammate. -/
def aliveMon : Pokemon :=
  { id := "a", name := "Alive", types := [.normal], level := 50,
    stats := { hp := 5, atk := 10, defn := 10, spAtk := 10, spDef := 10, speed := 5 },
    currentHp := 5, moves := [waitMove] }

/-- Roster slot 1: the active creature at 1 HP. -/
def frailMon : Pokemon :=
  { id := "b", name := "Frail", types := [.normal], level := 50,
    stats := { hp := 5, atk := 10, defn := 10, spAtk := 10, spDef := 10, speed := 5 },
    currentHp := 1, moves := [waitMove] }

/-- A fast, hard-hitting opponent with a guaranteed-hit damaging move. -/
def strongNpc : Pokemon :=
  { id := "n", name := "Strong", types := [.normal], level := 50,
    stats := { hp := 100, atk := 100, defn := 10, spAtk := 10, spDef := 10, speed := 50 },
    currentHp := 100, moves := [hitMove] }

/-- The player is on roster slot 1 (reachable through the battle screen's
manual switch, which sets `currentPlayerIndex` to any chosen slot) while
slot 0 still holds a non-fainted teammate. -/
def c5State : BattleState :=
  { turn := 1, phase := .select, playerTeam := [aliveMon, frailMon], npcTeam := [strongNpc],
    currentPlayerIndex := 1, currentNpcIndex := 0, winner := none, log := [] }

set_option maxHeartbeats 2000000 in
/-- C5 counterexample: the active creature (slot 1, 1 HP) is knocked to
0 HP by the faster opponent, and although the roster still holds a
non-fainted teammate in slot 0 (HP 5), no switch-in happens: the engine
sets `winner` to the opposing side and ends the battle, because the
switch search only scans indices strictly greater than the current one. -/
theorem c5_winner_despite_alive_teammate :
    (selectPlayerMove [] c5State "wait" 0).winner = some Side.npc ∧
    (selectPlayerMove [] c5State "wait" 0).phase = Phase.ended ∧
    ((selectPlayerMove [] c5State "wait" 0).playerTeam[1]?.getD placeholderPokemon).currentHp = 0 ∧
    ((selectPlayerMove [] c5State "wait" 0).playerTeam[0]?.getD placeholderPokemon).currentHp = 5 := by
  refine ⟨?_, ?_, ?_, ?_⟩ <;>
    norm_num +decide [selectPlayerMove, resolvePlayerFirst, resolveNpcFirst,
      executeAttack, c5State, aliveMon, frailMon, strongNpc,
      waitMove, hitMove, BattleState.player, BattleState.npc, BattleState.pushLog,
      BattleState.setActive, BattleState.setPlayer, BattleState.setNpc, BattleState.active,
      Side.other, playerFirstCheck, chooseMove, accuracyHit, createSeededRng, Rng.next,
      switchNpcPokemon, switchPlayerPokemon, findNextAlive, PLACEHOLDER_MOVE,
      placeholderPokemon, List.find?, List.range, calculateDamage, computeTypeMultiplier,
      assocLookup]

/-- C5 amended: on a faint the engine switches in the first non-fainted
teammate at an index *strictly greater* than the current active index
(never an earlier slot); when no such later teammate exists it sets
`winner` to the opposing side — even if an earlier roster slot still
holds a non-fainted teammate — and the "no teammate" condition it tests
is exactly "no alive creature after the current index", not "no alive
creature anywhere in the roster". -/
theorem c5_switch_after_current_only (s : BattleState) :
    (∀ n, findNextAlive s.playerTeam s.currentPlayerIndex = some n →
      switchPlayerPokemon s =
        ({ s with currentPlayerIndex := n }).pushLog
          ("¡Adelante, " ++ (BattleState.player { s with currentPlayerIndex := n }).name ++ "!") ∧
      s.currentPlayerIndex < n ∧
      0 < ((s.playerTeam[n]?).getD placeholderPokemon).currentHp) ∧
    (findNextAlive s.playerTeam s.currentPlayerIndex = none →
      switchPlayerPokemon s = { s with winner := some Side.npc }) ∧
    (findNextAlive s.playerTeam s.currentPlayerIndex = none ↔
      ∀ i, s.currentPlayerIndex < i → i < s.playerTeam.length →
        ((s.playerTeam[i]?).getD placeholderPokemon).currentHp ≤ 0) ∧
    (∀ n, findNextAlive s.npcTeam s.currentNpcIndex = some n →
      switchNpcPokemon s =
        ({ s with currentNpcIndex := n }).pushLog
          ("¡El rival envió a " ++ (BattleState.npc { s with currentNpcIndex := n }).name ++ "!") ∧
      s.currentNpcIndex < n ∧
      0 < ((s.npcTeam[n]?).getD placeholderPokemon).currentHp) ∧
    (findNextAlive s.npcTeam s.currentNpcIndex = none →
      switchNpcPokemon s = { s with winner := some Side.player }) ∧
    (findNextAlive s.npcTeam s.currentNpcIndex = none ↔
      ∀ i, s.currentNpcIndex < i → i < s.npcTeam.length →
        ((s.npcTeam[i]?).getD placeholderPokemon).currentHp ≤ 0) := by
  refine ⟨?_, ?_, findNextAlive_none_iff _ _, ?_, ?_, findNextAlive_none_iff _ _⟩
  · intro n hn
    have hs := findNextAlive_some _ _ _ hn
    exact ⟨by simp [switchPlayerPokemon, hn], hs.1, hs.2.1⟩
  · intro hn
    simp [switchPlayerPokemon, hn]
  · intro n hn
    have hs := findNextAlive_some _ _ _ hn
    exact ⟨by simp [switchNpcPokemon, hn], hs.1, hs.2.1⟩
  · intro hn
    simp [switchNpcPokemon, hn]

/-- Witness for `c5_switch_after_current_only` at the concrete roster
where the only remaining teammate sits at an earlier index. -/
theorem c5_switch_after_current_only_witness :
    switchPlayerPokemon c5State = { c5State with winner := some Side.npc } ∧
    (∀ i, c5State.currentPlayerIndex < i → i < c5State.playerTeam.length →
      ((c5State.playerTeam[i]?).getD placeholderPokemon).currentHp ≤ 0) := by
  have h := c5_switch_after_current_only c5State
  have hnone : findNextAlive c5State.playerTeam c5State.currentPlayerIndex = none := by
    decide
  exact ⟨h.2.1 hnone, (h.2.2.1).mp hnone⟩

/-! ### C7 -/

/-- C7: replay determinism.  A full battle is a pure function of the type
chart, the seed, the initial session, and the submitted move choices: two
independent runs over the same inputs yield byte-identical logs and
identical final team states (HP, stages, status), winner, turn and phase.
In the embedding all randomness flows through `createSeededRng seed`
(modelled from the spec), which is itself a function of the seed, and the
engine reads nothing else, so the fold `runBattle` is deterministic. -/
theorem c7_replay_determinism (chart : List ((TType × TType) × ℚ)) (seed : ℕ)
    (s0 : BattleState) (choices : List String) (s1 s2 : BattleState)
    (h1 : s1 = runBattle chart seed s0 choices)
    (h2 : s2 = runBattle chart seed s0 choices) :
    s1.log = s2.log ∧ s1.playerTeam = s2.playerTeam ∧ s1.npcTeam = s2.npcTeam ∧
    s1.winner = s2.winner ∧ s1.turn = s2.turn ∧ s1.phase = s2.phase := by
  subst h1
  subst h2
  exact ⟨rfl, rfl, rfl, rfl, rfl, rfl⟩

/-- Witness for `c7_replay_determinism`: two runs of a concrete one-turn
battle from the same seed and choices. -/
theorem c7_replay_determinism_witness :
    (runBattle [] 0 c2State ["wait"]).log = (runBattle [] 0 c2State ["wait"]).log ∧
    (runBattle [] 0 c2State ["wait"]).playerTeam = (runBattle [] 0 c2State ["wait"]).playerTeam ∧
    (runBattle [] 0 c2State ["wait"]).npcTeam = (runBattle [] 0 c2State ["wait"]).npcTeam ∧
    (runBattle [] 0 c2State ["wait"]).winner = (runBattle [] 0 c2State ["wait"]).winner ∧
    (runBattle [] 0 c2State ["wait"]).turn = (runBattle [] 0 c2State ["wait"]).turn ∧
    (runBattle [] 0 c2State ["wait"]).phase = (runBattle [] 0 c2State ["wait"]).phase :=
  c7_replay_determinism [] 0 c2State ["wait"] _ _ rfl rfl

/-! ### C9 -/

/-- The claim's HP invariant for one creature: `0 ≤ currentHp ≤ stats.hp`. -/
def hpInv (p : Pokemon) : Prop := 0 ≤ p.currentHp ∧ p.currentHp ≤ p.stats.hp

/-- The HP invariant over every creature of both rosters of a session. -/
def teamsHpInv (s : BattleState) : Prop :=
  (∀ p ∈ s.playerTeam, hpInv p) ∧ (∀ p ∈ s.npcTeam, hpInv p)

lemma hpInv_placeholder : hpInv placeholderPokemon := by
  norm_num [hpInv, placeholderPokemon]

lemma teamsHpInv_player {s : BattleState} (h : teamsHpInv s) : hpInv s.player := by
  unfold BattleState.player
  cases hg : s.playerTeam[s.currentPlayerIndex]? with
  | none => simpa using hpInv_placeholder
  | some p =>
    have hmem : p ∈ s.playerTeam := List.getElem?_mem hg
    simpa using h.1 p hmem

lemma teamsHpInv_npc {s : BattleState} (h : teamsHpInv s) : hpInv s.npc := by
  unfold BattleState.npc
  cases hg : s.npcTeam[s.currentNpcIndex]? with
  | none => simpa using hpInv_placeholder
  | some p =>
    have hmem : p ∈ s.npcTeam := List.getElem?_mem hg
    simpa using h.2 p hmem

lemma teamsHpInv_active {s : BattleState} (h : teamsHpInv s) (side : Side) :
    hpInv (s.active side) := by
  cases side
  · exact teamsHpInv_player h
  · exact teamsHpInv_npc h

lemma teamsHpInv_setPlayer {s : BattleState} {p : Pokemon}
    (h : teamsHpInv s) (hp : hpInv p) : teamsHpInv (s.setPlayer p) := by
  constructor
  · intro q hq
    simp only [BattleState.setPlayer] at hq
    rcases List.mem_or_eq_of_mem_set hq with h1 | h1
    · exact h.1 q h1
    · subst h1; exact hp
  · intro q hq
    exact h.2 q hq

lemma teamsHpInv_setNpc {s : BattleState} {p : Pokemon}
    (h : teamsHpInv s) (hp : hpInv p) : teamsHpInv (s.setNpc p) := by
  constructor
  · intro q hq
    exact h.1 q hq
  · intro q hq
    simp only [BattleState.setNpc] at hq
    rcases List.mem_or_eq_of_mem_set hq with h1 | h1
    · exact h.2 q h1
    · subst h1; exact hp

lemma teamsHpInv_setActive {s : BattleState} {p : Pokemon} (side : Side)
    (h : teamsHpInv s) (hp : hpInv p) : teamsHpInv (s.setActive side p) := by
  cases side
  · exact teamsHpInv_setPlayer h hp
  · exact teamsHpInv_setNpc h hp

lemma teamsHpInv_pushLog {s : BattleState} (m : String) (h : teamsHpInv s) :
    teamsHpInv (s.pushLog m) := h

lemma hpInv_congr {p q : Pokemon} (hc : q.currentHp = p.currentHp)
    (hs : q.stats = p.stats) (h : hpInv p) : hpInv q := by
  unfold hpInv at *
  rw [hc, hs]
  exact h

lemma applyMoveEffect_preserves (e : MoveEffect) (a d : Pokemon) (rng : Rng) :
    (applyMoveEffect e a d rng).attacker.currentHp = a.currentHp ∧
    (applyMoveEffect e a d rng).attacker.stats = a.stats ∧
    (applyMoveEffect e a d rng).defender.currentHp = d.currentHp ∧
    (applyMoveEffect e a d rng).defender.stats = d.stats := by
  unfold applyMoveEffect
  by_cases hch : rng.next.1 * 100 < e.chance.getD 100
  · simp only [hch, not_true_eq_false, if_false, ite_false]
    cases htype : e.type
    · cases hstat : e.stat <;> cases hstg : e.stages <;>
        by_cases htgt : e.target = EffectTarget.self <;>
        simp [htgt, withStages]
    · cases hcond : e.condition
      · simp
      · rename_i c
        by_cases htgt : e.target = EffectTarget.self <;>
          cases c <;> simp [htgt, withStatus] <;> split <;> simp [withStatus]
    · simp
  · simp [hch]

lemma calculateDamage_nonneg (i : DamageInput) (rng : Rng) :
    0 ≤ (calculateDamage i rng).1 := by
  simp only [calculateDamage]
  exact le_max_left _ _

lemma hpInv_applyDamage {p : Pokemon} (h : hpInv p) (d : ℤ) (hd : 0 ≤ d) :
    hpInv { p with currentHp := max 0 (p.currentHp - d) } := by
  unfold hpInv at *
  constructor
  · exact le_max_left _ _
  · simp only
    have h0 : (0 : ℤ) ≤ p.stats.hp := le_trans h.1 h.2
    have h1 : p.currentHp - d ≤ p.stats.hp := le_trans (by omega) h.2
    exact max_le h0 h1

set_option maxHeartbeats 3000000 in
lemma executeAttack_hpInv (chart : List ((TType × TType) × ℚ)) (s : BattleState)
    (side : Side) (mv : Move) (rng : Rng) (h : teamsHpInv s) :
    teamsHpInv (executeAttack chart s side mv rng).1 := by
  unfold executeAttack
  by_cases hacc : accuracyHit (rng.next).1 mv.accuracy
  case neg => simpa [hacc] using teamsHpInv_pushLog _ h
  simp only [hacc, if_true, ite_true]
  have h1 : teamsHpInv (s.pushLog ("¡" ++ (s.active side).name ++ " usó " ++ mv.name ++ "!")) :=
    teamsHpInv_pushLog _ h
  set s1 := s.pushLog ("¡" ++ (s.active side).name ++ " usó " ++ mv.name ++ "!") with hs1
  by_cases hstat : mv.category = Category.status ∨ mv.power = 0
  · simp only [hstat, if_true, ite_true]
    cases heff : mv.effect with
    | none => exact h1
    | some eff =>
      have hatk := teamsHpInv_active h side
      have hdef := teamsHpInv_active h1 side.other
      have hpres := applyMoveEffect_preserves eff (s.active side) (s1.active side.other)
        (rng.next).2
      have hA : hpInv (applyMoveEffect eff (s.active side) (s1.active side.other)
          (rng.next).2).attacker :=
        hpInv_congr hpres.1 hpres.2.1 hatk
      have hB : hpInv (applyMoveEffect eff (s.active side) (s1.active side.other)
          (rng.next).2).defender :=
        hpInv_congr hpres.2.2.1 hpres.2.2.2 hdef
      have h2 := teamsHpInv_setActive side.other
        (teamsHpInv_setActive side h1 hA) hB
      rcases hout : (applyMoveEffect eff (s.active side) (s1.active side.other)
          (rng.next).2).message with _ | msg
      · simp only [hout]
        exact h2
      · simp only [hout]
        by_cases happ : (applyMoveEffect eff (s.active side) (s1.active side.other)
            (rng.next).2).applied <;>
          simp only [happ, if_true, if_false, ite_true, ite_false]
        · exact teamsHpInv_pushLog _ h2
        · exact h2
  · simp only [hstat, if_false, ite_false]
    have hdef : hpInv (s1.active side.other) := teamsHpInv_active h1 side.other
    rcases heff2 : mv.effect with _ | eff <;> simp only [heff2] <;>
      (repeat' split) <;>
      first
        | exact teamsHpInv_setActive _ h1 (hpInv_applyDamage hdef _ (calculateDamage_nonneg _ _))
        | exact teamsHpInv_setActive _ (teamsHpInv_setActive _ (teamsHpInv_setActive _ h1
            (hpInv_applyDamage hdef _ (calculateDamage_nonneg _ _)))
            (hpInv_congr (applyMoveEffect_preserves _ _ _ _).1
              (applyMoveEffect_preserves _ _ _ _).2.1 (teamsHpInv_active h side)))
            (hpInv_congr (applyMoveEffect_preserves _ _ _ _).2.2.1
              (applyMoveEffect_preserves _ _ _ _).2.2.2
              (hpInv_applyDamage hdef _ (calculateDamage_nonneg _ _)))

lemma switchPlayerPokemon_hpInv {s : BattleState} (h : teamsHpInv s) :
    teamsHpInv (switchPlayerPokemon s) := by
  unfold switchPlayerPokemon
  split <;> exact h

lemma switchNpcPokemon_hpInv {s : BattleState} (h : teamsHpInv s) :
    teamsHpInv (switchNpcPokemon s) := by
  unfold switchNpcPokemon
  split <;> exact h

set_option maxHeartbeats 4000000 in
lemma resolvePlayerFirst_hpInv (chart : List ((TType × TType) × ℚ)) (s0 : BattleState)
    (pm nm : Move) (rng : Rng) (h0 : teamsHpInv s0) :
    teamsHpInv (resolvePlayerFirst chart s0 pm nm rng) := by
  unfold resolvePlayerFirst
  dsimp only
  have e1 := executeAttack_hpInv chart s0 Side.player pm rng h0
  (repeat' split) <;>
    first
      | exact e1
      | exact switchNpcPokemon_hpInv e1
      | exact switchPlayerPokemon_hpInv (executeAttack_hpInv _ _ _ _ _ (switchNpcPokemon_hpInv e1))
      | exact switchPlayerPokemon_hpInv (executeAttack_hpInv _ _ _ _ _ e1)
      | exact executeAttack_hpInv _ _ _ _ _ (switchNpcPokemon_hpInv e1)
      | exact executeAttack_hpInv _ _ _ _ _ e1

set_option maxHeartbeats 4000000 in
lemma resolveNpcFirst_hpInv (chart : List ((TType × TType) × ℚ)) (s0 : BattleState)
    (pm nm : Move) (rng : Rng) (h0 : teamsHpInv s0) :
    teamsHpInv (resolveNpcFirst chart s0 pm nm rng) := by
  unfold resolveNpcFirst
  dsimp only
  have e1 := executeAttack_hpInv chart s0 Side.npc nm rng h0
  (repeat' split) <;>
    first
      | exact e1
      | exact switchPlayerPokemon_hpInv e1
      | exact switchNpcPokemon_hpInv (executeAttack_hpInv _ _ _ _ _ (switchPlayerPokemon_hpInv e1))
      | exact switchNpcPokemon_hpInv (executeAttack_hpInv _ _ _ _ _ e1)
      | exact executeAttack_hpInv _ _ _ _ _ (switchPlayerPokemon_hpInv e1)
      | exact executeAttack_hpInv _ _ _ _ _ e1

lemma teamsHpInv_withLogPhase (s : BattleState) (L : List String) (ph : Phase) :
    teamsHpInv { s with log := L, phase := ph } ↔ teamsHpInv s := Iff.rfl

lemma teamsHpInv_withTurnPhase (s : BattleState) (t : ℕ) (ph : Phase) :
    teamsHpInv { s with turn := t, phase := ph } ↔ teamsHpInv s := Iff.rfl

set_option maxHeartbeats 1000000 in
lemma selectPlayerMove_hpInv (chart : List ((TType × TType) × ℚ)) (s : BattleState)
    (mid : String) (seed : ℕ) (h : teamsHpInv s) :
    teamsHpInv (selectPlayerMove chart s mid seed) := by
  unfold selectPlayerMove
  dsimp only
  split
  · exact h
  split
  · exact h
  split
  · refine (teamsHpInv_withLogPhase _ _ _).mpr ?_
    split
    · exact resolvePlayerFirst_hpInv _ _ _ _ _ h
    · exact resolveNpcFirst_hpInv _ _ _ _ _ h
  · refine (teamsHpInv_withTurnPhase _ _ _).mpr ?_
    split
    · exact resolvePlayerFirst_hpInv _ _ _ _ _ h
    · exact resolveNpcFirst_hpInv _ _ _ _ _ h

lemma startBattle_full_hp (pt nt : List Pokemon) (s0 : BattleState)
    (hpt : ∀ p ∈ pt, 0 ≤ p.stats.hp) (hnt : ∀ p ∈ nt, 0 ≤ p.stats.hp)
    (hok : startBattle pt nt = Except.ok s0) :
    teamsHpInv s0 ∧ (∀ p ∈ s0.playerTeam, p.currentHp = p.stats.hp) ∧
      (∀ p ∈ s0.npcTeam, p.currentHp = p.stats.hp) := by
  unfold startBattle at hok
  dsimp only at hok
  split at hok
  · exact absurd hok (by simp)
  split at hok
  · exact absurd hok (by simp)
  injection hok with hok
  subst hok
  refine ⟨⟨?_, ?_⟩, ?_, ?_⟩ <;>
    · intro p hp
      simp only [List.map_map, List.mem_map] at hp
      obtain ⟨q, hq, rfl⟩ := hp
      first
        | exact ⟨hpt q hq, le_refl _⟩
        | exact ⟨hnt q hq, le_refl _⟩
        | rfl

/-- C9: the HP invariant `0 ≤ currentHp ≤ stats.hp` holds for every
creature at battle start — `startBattle` resets everyone to full HP — and
is preserved by every engine operation: `selectPlayerMove` (which performs
the attacks, effect applications and faint switches of one resolved turn)
never drives any creature's HP below 0 and never raises it above
`stats.hp`. -/
theorem c9_hp_invariant :
    (∀ (pt nt : List Pokemon) (s0 : BattleState),
      (∀ p ∈ pt, 0 ≤ p.stats.hp) → (∀ p ∈ nt, 0 ≤ p.stats.hp) →
      startBattle pt nt = Except.ok s0 →
      teamsHpInv s0 ∧ (∀ p ∈ s0.playerTeam, p.currentHp = p.stats.hp) ∧
        (∀ p ∈ s0.npcTeam, p.currentHp = p.stats.hp)) ∧
    (∀ (chart : List ((TType × TType) × ℚ)) (s : BattleState) (mid : String) (seed : ℕ),
      teamsHpInv s → teamsHpInv (selectPlayerMove chart s mid seed)) :=
  ⟨startBattle_full_hp, selectPlayerMove_hpInv⟩

/-- Witness for `c9_hp_invariant` at a concrete battle start and a
concrete resolved turn. -/
theorem c9_hp_invariant_witness :
    teamsHpInv ((startBattle [swiftster] [calmNpc]).toOption.getD c2State) ∧
    teamsHpInv (selectPlayerMove [] c2State "wait" 0) := by
  constructor
  · have h := (c9_hp_invariant.1 [swiftster] [calmNpc] _
      (by norm_num [swiftster]) (by norm_num [calmNpc]) rfl).1
    exact h
  · exact c9_hp_invariant.2 [] c2State "wait" 0
      (by norm_num [teamsHpInv, hpInv, c2State, poisonedMon, calmNpc])
